import Mathlib

/-!
Verification of the mesh multisig program (programs/mesh/src/lib.rs).

The data model (`Ms`, `MsTransaction`, `MsInstruction`) and their helper
methods live in the program's state module, which is not part of the
sources at hand; those definitions are modelled from the specification
(sections 3, 4.1, 4.3) and marked as such. The instruction handlers and
the account-constraint checks are translated directly from lib.rs.

Member identities and account addresses (`Pubkey`) are abstracted as
naturals; cryptographic signature verification and PDA derivation are the
host environment's duty and appear only through the constraints that use
their results.
-/

namespace Mesh

/-- Principal / account identity (Solana `Pubkey`), abstracted. -/
abbrev Pubkey := Nat

/-- Error taxonomy. Modelled from the spec: section 7 lists the program's
fault kinds (errors.rs is not among the sources). `ConstraintRaw` stands
for the host framework's anonymous constraint violation, raised by the
`creator.key() == transaction.creator` constraints that carry no custom
error code. -/
inductive GraphsError where
  | EmptyMembers
  | MaxMembersReached
  | InvalidThreshold
  | CannotRemoveSoloMember
  | InvalidInstructionAccount
  | InvalidAuthorityType
  | InvalidAuthorityIndex
  | InvalidTransactionState
  | DeprecatedTransaction
  | PartialExecution
  | KeyNotInMultisig
  | InvalidExternalAuthority
  | ConstraintRaw
  deriving DecidableEq

/-- Proposal lifecycle states. Modelled from the spec: section 4.3,
`Draft → Active → ExecuteReady → Executed` with terminal `Cancelled`,
`Rejected` (also named in the lib.rs constraints). -/
inductive MsTransactionStatus where
  | Draft
  | Active
  | ExecuteReady
  | Executed
  | Rejected
  | Cancelled
  deriving DecidableEq

/-- Authority binding type of an attached operation (lib.rs uses
`MsAuthorityType::Default` and `MsAuthorityType::Custom`). -/
inductive MsAuthorityType where
  | Default
  | Custom
  deriving DecidableEq

/-- The multisig registry account. Modelled from the spec: section 3,
MembershipRegistry (state module not among the sources). `key` carries
the account's own address, used by the `transaction.ms == multisig.key()`
constraints. -/
structure Ms where
  external_authority : Pubkey
  threshold : Nat
  create_key : Pubkey
  keys : List Pubkey
  transaction_index : Nat
  ms_change_index : Nat
  allow_external_execute : Bool
  key : Pubkey
  deriving DecidableEq

/-- A proposal (transaction) account. Modelled from the spec: section 3,
Proposal (state module not among the sources). -/
structure MsTransaction where
  creator : Pubkey
  ms : Pubkey
  transaction_index : Nat
  authority_index : Nat
  authority_bump : Nat
  status : MsTransactionStatus
  instruction_index : Nat
  executed_index : Nat
  approved : List Pubkey
  rejected : List Pubkey
  cancelled : List Pubkey
  deriving DecidableEq

/-- An attached operation record. Modelled from the spec: section 3,
OperationRecord (state module not among the sources). The target program,
account list and payload only matter to the host-level account matching,
which is abstracted into the execution environment parameter below. -/
structure MsInstruction where
  instruction_index : Nat
  program_id : Pubkey
  keys : List (Pubkey × Bool × Bool)
  data : List Nat
  authority_index : Option Nat
  authority_bump : Option Nat
  authority_type : MsAuthorityType
  executed : Bool
  deriving DecidableEq

/-- Insert a key into a sorted key list (used to model the registry's
sorted, deduplicated member set). -/
def insertSorted (k : Pubkey) : List Pubkey → List Pubkey
  | [] => [k]
  | x :: xs => if k ≤ x then k :: x :: xs else x :: insertSorted k xs

/-- Insertion sort over key lists, modelling `members.sort()`. -/
def sortKeys (l : List Pubkey) : List Pubkey :=
  l.foldr insertSorted []

/-- First index of `k` in `l`, if present. Models the index-returning
membership probes of the state module (`is_member`, `has_voted_*`). -/
def findIndexOf (k : Pubkey) : List Pubkey → Option Nat
  | [] => none
  | x :: xs => if x = k then some 0 else (findIndexOf k xs).map (· + 1)

/-- Modelled from the spec: membership probe against the registry's
member set, returning the member's index when present. -/
def Ms.is_member (ms : Ms) (k : Pubkey) : Option Nat :=
  findIndexOf k ms.keys

/-- Modelled from the spec: section 4.1, `addMember` inserts the new key
into the sorted, deduplicated member set (no-op when already present). -/
def Ms.add_member (ms : Ms) (k : Pubkey) : Ms :=
  if ms.keys.contains k then ms
  else { ms with keys := insertSorted k ms.keys }

/-- Modelled from the spec: section 4.1 / 7, removing a key that is not a
member is an authorization fault (`KeyNotInMultisig`); otherwise the key
is removed from the member set. -/
def Ms.remove_member (ms : Ms) (k : Pubkey) : Except GraphsError Ms :=
  match findIndexOf k ms.keys with
  | none => .error GraphsError.KeyNotInMultisig
  | some i => .ok { ms with keys := ms.keys.eraseIdx i }

/-- Modelled from the spec: the state module's threshold setter (all
range validation is done by the lib.rs handlers). -/
def Ms.change_threshold (ms : Ms) (n : Nat) : Ms :=
  { ms with threshold := n }

/-- Modelled from the spec: setter for `ms_change_index`, "bumps
`ms_change_index` to the current `transaction_index`" callers. -/
def Ms.set_change_index (ms : Ms) (i : Nat) : Ms :=
  { ms with ms_change_index := i }

/-- Modelled from the spec: index of a standing approve vote by `k`. -/
def MsTransaction.has_voted_approve (tx : MsTransaction) (k : Pubkey) : Option Nat :=
  findIndexOf k tx.approved

/-- Modelled from the spec: index of a standing reject vote by `k`. -/
def MsTransaction.has_voted_reject (tx : MsTransaction) (k : Pubkey) : Option Nat :=
  findIndexOf k tx.rejected

/-- Modelled from the spec: index of a standing cancel vote by `k`. -/
def MsTransaction.has_cancelled (tx : MsTransaction) (k : Pubkey) : Option Nat :=
  findIndexOf k tx.cancelled

/-- Modelled from the spec: drop the approve vote stored at index `i`. -/
def MsTransaction.remove_approve (tx : MsTransaction) (i : Nat) : MsTransaction :=
  { tx with approved := tx.approved.eraseIdx i }

/-- Modelled from the spec: drop the reject vote stored at index `i`. -/
def MsTransaction.remove_reject (tx : MsTransaction) (i : Nat) : MsTransaction :=
  { tx with rejected := tx.rejected.eraseIdx i }

/-- Modelled from the spec: record an approve vote by `k`. -/
def MsTransaction.sign (tx : MsTransaction) (k : Pubkey) : MsTransaction :=
  { tx with approved := tx.approved ++ [k] }

/-- Modelled from the spec: record a reject vote by `k`. -/
def MsTransaction.reject (tx : MsTransaction) (k : Pubkey) : MsTransaction :=
  { tx with rejected := tx.rejected ++ [k] }

/-- Modelled from the spec: record a cancel vote by `k`. -/
def MsTransaction.cancel (tx : MsTransaction) (k : Pubkey) : MsTransaction :=
  { tx with cancelled := tx.cancelled ++ [k] }

/-- Modelled from the spec: `Draft → Active` status setter. -/
def MsTransaction.activate (tx : MsTransaction) : MsTransaction :=
  { tx with status := MsTransactionStatus.Active }

/-- Modelled from the spec: status setter to `ExecuteReady`. -/
def MsTransaction.ready_to_execute (tx : MsTransaction) : MsTransaction :=
  { tx with status := MsTransactionStatus.ExecuteReady }

/-- Modelled from the spec: status setter to `Rejected`. -/
def MsTransaction.set_rejected (tx : MsTransaction) : MsTransaction :=
  { tx with status := MsTransactionStatus.Rejected }

/-- Modelled from the spec: status setter to `Cancelled`. -/
def MsTransaction.set_cancelled (tx : MsTransaction) : MsTransaction :=
  { tx with status := MsTransactionStatus.Cancelled }

/-- Modelled from the spec: status setter to `Executed`. -/
def MsTransaction.set_executed (tx : MsTransaction) : MsTransaction :=
  { tx with status := MsTransactionStatus.Executed }

/-- Modelled from the spec: mark an operation record as executed. -/
def MsInstruction.set_executed (ix : MsInstruction) : MsInstruction :=
  { ix with executed := true }

/-- `create` handler (lib.rs 22-51): sorts and dedupes the members, then
validates emptiness, the u16 ceiling and the threshold range before
initialising the registry (fresh registry: `transaction_index = 0`,
spec section 4.1). -/
def create (external_authority : Pubkey) (threshold : Nat) (create_key : Pubkey)
    (members : List Pubkey) (msKey : Pubkey) : Except GraphsError Ms :=
  let sorted := (sortKeys members).dedup
  let total_members := sorted.length
  if total_members < 1 then .error GraphsError.EmptyMembers
  else if total_members > 65535 then .error GraphsError.MaxMembersReached
  else if threshold < 1 ∨ threshold > total_members then .error GraphsError.InvalidThreshold
  else .ok {
    external_authority := external_authority
    threshold := threshold
    create_key := create_key
    keys := sorted
    transaction_index := 0
    ms_change_index := 0
    allow_external_execute := false
    key := msKey
  }

/-- `add_member` handler (lib.rs 54-92): rejects at the u16 ceiling,
inserts the key and bumps `ms_change_index` to the current
`transaction_index`. The storage reallocation and rent top-up in the
source body are host-storage interactions (spec section 6) with no effect
on the registry fields modelled here. -/
def add_member (ms : Ms) (new_member : Pubkey) : Except GraphsError Ms :=
  if ms.keys.length ≥ 65535 then .error GraphsError.MaxMembersReached
  else
    let ms2 := Ms.add_member ms new_member
    .ok (ms2.set_change_index ms2.transaction_index)

/-- `remove_member` handler (lib.rs 95-109): rejects removing the sole
member, removes the key, lowers the threshold to the member count when
the count dropped below it, and bumps `ms_change_index`. -/
def remove_member (ms : Ms) (old_member : Pubkey) : Except GraphsError Ms :=
  if ms.keys.length == 1 then .error GraphsError.CannotRemoveSoloMember
  else
    match Ms.remove_member ms old_member with
    | .error e => .error e
    | .ok ms2 =>
      let ms3 := if ms2.keys.length < ms2.threshold
                 then ms2.change_threshold ms2.keys.length else ms2
      .ok (ms3.set_change_index ms3.transaction_index)

/-- `change_threshold` handler (lib.rs 154-166): an over-large value is
clamped down to the member count, a value below 1 is rejected, anything
else is installed; every success bumps `ms_change_index`. -/
def change_threshold (ms : Ms) (new_threshold : Nat) : Except GraphsError Ms :=
  if ms.keys.length < new_threshold then
    let ms2 := ms.change_threshold ms.keys.length
    .ok (ms2.set_change_index ms2.transaction_index)
  else if new_threshold < 1 then .error GraphsError.InvalidThreshold
  else
    let ms2 := ms.change_threshold new_threshold
    .ok (ms2.set_change_index ms2.transaction_index)

/-- `add_member_and_change_threshold` handler (lib.rs 127-151): runs
`add_member`, then the same clamp/validate/install threshold logic as
`change_threshold`, then bumps `ms_change_index`. -/
def add_member_and_change_threshold (ms : Ms) (new_member : Pubkey)
    (new_threshold : Nat) : Except GraphsError Ms :=
  match add_member ms new_member with
  | .error e => .error e
  | .ok ms1 =>
    if ms1.keys.length < new_threshold then
      let ms2 := ms1.change_threshold ms1.keys.length
      .ok (ms2.set_change_index ms2.transaction_index)
    else if new_threshold < 1 then .error GraphsError.InvalidThreshold
    else
      let ms2 := ms1.change_threshold new_threshold
      .ok (ms2.set_change_index ms2.transaction_index)

/-- `remove_member_and_change_threshold` handler (lib.rs 112-124):
`remove_member` followed by `change_threshold`. -/
def remove_member_and_change_threshold (ms : Ms) (old_member : Pubkey)
    (new_threshold : Nat) : Except GraphsError Ms :=
  match remove_member ms old_member with
  | .error e => .error e
  | .ok ms1 => change_threshold ms1 new_threshold

/-- Account constraints of `ActivateTransaction` (lib.rs 638-669), checked
in declaration order: the multisig membership of the signer first, then
the transaction's creator match, Draft status, deprecation check and
owning-multisig match. -/
def activateChecks (ms : Ms) (tx : MsTransaction) (creator : Pubkey) :
    Option GraphsError :=
  if (Ms.is_member ms creator).isNone then some GraphsError.KeyNotInMultisig
  else if creator ≠ tx.creator then some GraphsError.ConstraintRaw
  else if tx.status ≠ MsTransactionStatus.Draft then some GraphsError.InvalidTransactionState
  else if ¬ tx.transaction_index > ms.ms_change_index then some GraphsError.DeprecatedTransaction
  else if tx.ms ≠ ms.key then some GraphsError.InvalidInstructionAccount
  else none

/-- `activate_transaction` handler (lib.rs 214-216) behind the
`ActivateTransaction` constraints. -/
def activate_transaction (ms : Ms) (tx : MsTransaction) (creator : Pubkey) :
    Except GraphsError MsTransaction :=
  match activateChecks ms tx creator with
  | some e => .error e
  | none => .ok tx.activate

/-- Account constraints of `VoteTransaction` (lib.rs 671-701), checked in
declaration order: signer membership, Active status, deprecation check,
owning-multisig match. -/
def voteChecks (ms : Ms) (tx : MsTransaction) (member : Pubkey) :
    Option GraphsError :=
  if (Ms.is_member ms member).isNone then some GraphsError.KeyNotInMultisig
  else if tx.status ≠ MsTransactionStatus.Active then some GraphsError.InvalidTransactionState
  else if ¬ tx.transaction_index > ms.ms_change_index then some GraphsError.DeprecatedTransaction
  else if tx.ms ≠ ms.key then some GraphsError.InvalidInstructionAccount
  else none

/-- Vote-state update of `approve_transaction` (lib.rs 260-272): remove a
standing reject vote, record the approval when not already recorded, and
mark ExecuteReady once `|approved| ≥ threshold`. -/
def approveCore (ms : Ms) (tx : MsTransaction) (member : Pubkey) : MsTransaction :=
  let tx1 := match tx.has_voted_reject member with
             | some ind => tx.remove_reject ind
             | none => tx
  let tx2 := if (tx1.has_voted_approve member).isNone then tx1.sign member else tx1
  if tx2.approved.length ≥ ms.threshold then tx2.ready_to_execute else tx2

/-- `approve_transaction` handler behind the `VoteTransaction`
constraints. -/
def approve_transaction (ms : Ms) (tx : MsTransaction) (member : Pubkey) :
    Except GraphsError MsTransaction :=
  match voteChecks ms tx member with
  | some e => .error e
  | none => .ok (approveCore ms tx member)

/-- Vote-state update of `reject_transaction` (lib.rs 276-290): remove a
standing approve vote, record the rejection when not already recorded,
and mark Rejected once `|rejected| > |members| − threshold`. The source
computes the cutoff with `checked_sub(..).unwrap()`; under the registry
invariant `threshold ≤ |members|` this is the natural-number difference
used here. -/
def rejectCore (ms : Ms) (tx : MsTransaction) (member : Pubkey) : MsTransaction :=
  let tx1 := match tx.has_voted_approve member with
             | some ind => tx.remove_approve ind
             | none => tx
  let tx2 := if (tx1.has_voted_reject member).isNone then tx1.reject member else tx1
  let cutoff := ms.keys.length - ms.threshold
  if tx2.rejected.length > cutoff then tx2.set_rejected else tx2

/-- `reject_transaction` handler behind the `VoteTransaction`
constraints. -/
def reject_transaction (ms : Ms) (tx : MsTransaction) (member : Pubkey) :
    Except GraphsError MsTransaction :=
  match voteChecks ms tx member with
  | some e => .error e
  | none => .ok (rejectCore ms tx member)

/-- Account constraints of `CancelTransaction` (lib.rs 703-733): signer
membership, ExecuteReady status, owning-multisig match (no deprecation
check). -/
def cancelChecks (ms : Ms) (tx : MsTransaction) (member : Pubkey) :
    Option GraphsError :=
  if (Ms.is_member ms member).isNone then some GraphsError.KeyNotInMultisig
  else if tx.status ≠ MsTransactionStatus.ExecuteReady then some GraphsError.InvalidTransactionState
  else if tx.ms ≠ ms.key then some GraphsError.InvalidInstructionAccount
  else none

/-- Vote-state update of `cancel_transaction` (lib.rs 294-303): record a
cancel vote when not already recorded, mark Cancelled once
`|cancelled| ≥ threshold`. Prior approve/reject votes are not touched. -/
def cancelCore (ms : Ms) (tx : MsTransaction) (member : Pubkey) : MsTransaction :=
  let tx1 := if (tx.has_cancelled member).isNone then tx.cancel member else tx
  if tx1.cancelled.length ≥ ms.threshold then tx1.set_cancelled else tx1

/-- `cancel_transaction` handler behind the `CancelTransaction`
constraints. -/
def cancel_transaction (ms : Ms) (tx : MsTransaction) (member : Pubkey) :
    Except GraphsError MsTransaction :=
  match cancelChecks ms tx member with
  | some e => .error e
  | none => .ok (cancelCore ms tx member)

/-- Account constraints of `ExecuteTransaction` (lib.rs 735-767):
membership (or the external-execute setting), ExecuteReady status,
owning-multisig match, and `executed_index < 1` (`PartialExecution`
otherwise). There is no deprecation check on this path. -/
def executeTxChecks (ms : Ms) (tx : MsTransaction) (member : Pubkey) :
    Option GraphsError :=
  if ¬ ((Ms.is_member ms member).isSome ∨ ms.allow_external_execute) then
    some GraphsError.KeyNotInMultisig
  else if tx.status ≠ MsTransactionStatus.ExecuteReady then some GraphsError.InvalidTransactionState
  else if tx.ms ≠ ms.key then some GraphsError.InvalidInstructionAccount
  else if ¬ tx.executed_index < 1 then some GraphsError.PartialExecution
  else none

/-- Replays the batch steps `1..=n` in order, aborting on the first
failure. `env i` abstracts step `i`'s host-level work from lib.rs
327-425: the instruction-account ownership/PDA/program/account-list
verification and the delegated `invoke_signed` (spec section 6). -/
def runBatch (env : Nat → Except GraphsError Unit) : List Nat → Except GraphsError Unit
  | [] => .ok ()
  | i :: rest =>
    match env i with
    | .error e => .error e
    | .ok _ => runBatch env rest

/-- `execute_transaction` handler (lib.rs 307-432) behind the
`ExecuteTransaction` constraints: with no attached instruction
(`instruction_index < 1`) the proposal is marked Executed at once;
otherwise every step must replay successfully before the proposal is
marked Executed (any failure aborts the whole call). -/
def execute_transaction (env : Nat → Except GraphsError Unit) (ms : Ms)
    (tx : MsTransaction) (member : Pubkey) : Except GraphsError MsTransaction :=
  match executeTxChecks ms tx member with
  | some e => .error e
  | none =>
    if tx.instruction_index < 1 then .ok tx.set_executed
    else
      match runBatch env (List.range' 1 tx.instruction_index) with
      | .error e => .error e
      | .ok _ => .ok tx.set_executed

/-- Account constraints of `ExecuteInstruction` (lib.rs 770-813):
membership (or external-execute), ExecuteReady status, owning-multisig
match, then the instruction account must be unexecuted and be the next
expected one (`instruction_index == executed_index + 1`; the account's
PDA seeds enforce the same index). -/
def executeIxChecks (ms : Ms) (tx : MsTransaction) (ix : MsInstruction)
    (member : Pubkey) : Option GraphsError :=
  if ¬ ((Ms.is_member ms member).isSome ∨ ms.allow_external_execute) then
    some GraphsError.KeyNotInMultisig
  else if tx.status ≠ MsTransactionStatus.ExecuteReady then some GraphsError.InvalidTransactionState
  else if tx.ms ≠ ms.key then some GraphsError.InvalidInstructionAccount
  else if ix.executed then some GraphsError.InvalidInstructionAccount
  else if ix.instruction_index ≠ tx.executed_index + 1 then some GraphsError.InvalidInstructionAccount
  else none

/-- `execute_instruction` handler (lib.rs 436-530) behind the
`ExecuteInstruction` constraints. `env` abstracts the host-level
program/account matching and the delegated `invoke_signed` of this single
step (spec section 6). On success the operation is flagged executed,
`executed_index` is set to the operation's index, and when that index
equals `instruction_index` the proposal is marked Executed. -/
def execute_instruction (env : Except GraphsError Unit) (ms : Ms)
    (tx : MsTransaction) (ix : MsInstruction) (member : Pubkey) :
    Except GraphsError (MsTransaction × MsInstruction) :=
  match executeIxChecks ms tx ix member with
  | some e => .error e
  | none =>
    match env with
    | .error e => .error e
    | .ok _ =>
      let ix2 := ix.set_executed
      let tx2 := { tx with executed_index := ix2.instruction_index }
      let tx3 := if ix2.instruction_index = tx.instruction_index
                 then tx2.set_executed else tx2
      .ok (tx3, ix2)

/-! ### Concrete instances used to instantiate the theorems -/

/-- Concrete singleton registry used to instantiate theorems. -/
def msW : Ms :=
  { external_authority := 0, threshold := 1, create_key := 0,
    keys := [5], transaction_index := 0, ms_change_index := 0,
    allow_external_execute := false, key := 9 }

/-- Single-member registry (threshold 1) whose proposals auto-quorum. -/
def msC3 : Ms :=
  { external_authority := 0, threshold := 1, create_key := 0,
    keys := [1], transaction_index := 3, ms_change_index := 0,
    allow_external_execute := false, key := 100 }

/-- Fresh Active proposal of `msC3` with no votes. -/
def txC3 : MsTransaction :=
  { creator := 1, ms := 100, transaction_index := 3,
    authority_index := 1, authority_bump := 0,
    status := MsTransactionStatus.Active,
    instruction_index := 0, executed_index := 0,
    approved := [], rejected := [], cancelled := [] }

/-- `txC3` after member 1 approves: quorum reached, ExecuteReady. -/
def txC3a : MsTransaction :=
  { txC3 with approved := [1], status := MsTransactionStatus.ExecuteReady }

/-- `txC3a` after member 1 also casts a cancel vote: member 1 now stands
in both `approved` and `cancelled`. -/
def txC3b : MsTransaction :=
  { txC3a with cancelled := [1], status := MsTransactionStatus.Cancelled }

/-- Seven-member registry with threshold 3 (rejection cutoff 4). -/
def ms7 : Ms :=
  { external_authority := 0, threshold := 3, create_key := 0,
    keys := [1, 2, 3, 4, 5, 6, 7], transaction_index := 3, ms_change_index := 0,
    allow_external_execute := false, key := 100 }

/-- Active proposal of `ms7` holding four reject votes. -/
def tx7 : MsTransaction :=
  { txC3 with rejected := [2, 3, 4, 5] }

/-- Two-member registry with threshold 2. -/
def msV : Ms :=
  { external_authority := 0, threshold := 2, create_key := 0,
    keys := [1, 2], transaction_index := 1, ms_change_index := 0,
    allow_external_execute := false, key := 100 }

/-- Fresh Active proposal of `msV`. -/
def txV : MsTransaction :=
  { txC3 with transaction_index := 1 }

/-- Two-member registry with threshold 1 (as after a threshold lowering). -/
def msC10 : Ms :=
  { msV with threshold := 1 }

/-- Active proposal of `msC10` already carrying member 1's approval. -/
def txC10 : MsTransaction :=
  { txV with approved := [1] }

/-- Registry whose `ms_change_index` (5) deprecates proposal index 3. -/
def msDep : Ms :=
  { external_authority := 0, threshold := 1, create_key := 0,
    keys := [1], transaction_index := 5, ms_change_index := 5,
    allow_external_execute := false, key := 100 }

/-- Deprecated proposal (transaction_index 3 ≤ ms_change_index 5) already
in ExecuteReady, with no attached instruction. -/
def txDep : MsTransaction :=
  { creator := 1, ms := 100, transaction_index := 3,
    authority_index := 1, authority_bump := 0,
    status := MsTransactionStatus.ExecuteReady,
    instruction_index := 0, executed_index := 0,
    approved := [1], rejected := [], cancelled := [] }

/-- The deprecated proposal while still in Draft. -/
def txDepDraft : MsTransaction :=
  { txDep with status := MsTransactionStatus.Draft }

/-- The deprecated proposal while Active. -/
def txDepActive : MsTransaction :=
  { txDep with status := MsTransactionStatus.Active }

/-- Draft proposal created by principal 1, who is not a member of `msW`. -/
def txC9 : MsTransaction :=
  { creator := 1, ms := 9, transaction_index := 1,
    authority_index := 1, authority_bump := 0,
    status := MsTransactionStatus.Draft,
    instruction_index := 0, executed_index := 0,
    approved := [], rejected := [], cancelled := [] }

/-- Single-member registry for the execution scenarios. -/
def msE : Ms :=
  { external_authority := 0, threshold := 1, create_key := 0,
    keys := [1], transaction_index := 1, ms_change_index := 0,
    allow_external_execute := false, key := 100 }

/-- ExecuteReady proposal with two attached operations, first one already
executed sequentially (`executed_index = 1`). -/
def txE : MsTransaction :=
  { creator := 1, ms := 100, transaction_index := 1,
    authority_index := 1, authority_bump := 0,
    status := MsTransactionStatus.ExecuteReady,
    instruction_index := 2, executed_index := 1,
    approved := [1], rejected := [], cancelled := [] }

/-- The proposal's second operation record, not yet executed. -/
def ixE : MsInstruction :=
  { instruction_index := 2, program_id := 0, keys := [], data := [],
    authority_index := some 1, authority_bump := some 0,
    authority_type := MsAuthorityType.Default, executed := false }

/-- An out-of-order operation record (index 3 instead of 2). -/
def ixBad : MsInstruction :=
  { ixE with instruction_index := 3 }

/-- ExecuteReady proposal of `msE` with zero attached operations. -/
def txE0 : MsTransaction :=
  { txE with instruction_index := 0, executed_index := 0 }

/-- Host environment in which every delegated invocation succeeds. -/
def envOk : Nat → Except GraphsError Unit := fun _ => Except.ok ()

/-! ### Helper lemmas -/

theorem length_insertSorted (k : Pubkey) (l : List Pubkey) :
    (insertSorted k l).length = l.length + 1 := by
  induction l with
  | nil => rfl
  | cons x xs ih =>
    simp only [insertSorted]
    split
    · simp
    · simp [ih]

theorem findIndexOf_eq_none (k : Pubkey) (l : List Pubkey) :
    findIndexOf k l = none ↔ k ∉ l := by
  induction l with
  | nil => simp [findIndexOf]
  | cons x xs ih =>
    simp only [findIndexOf]
    split
    · rename_i h
      simp [h]
    · rename_i h
      simp only [Option.map_eq_none', ih, List.mem_cons]
      constructor
      · intro hk hor
        rcases hor with hor | hor
        · exact h hor.symm
        · exact hk hor
      · intro hk hm
        exact hk (Or.inr hm)

theorem mem_of_findIndexOf (k : Pubkey) (l : List Pubkey) (i : Nat)
    (h : findIndexOf k l = some i) : k ∈ l := by
  by_contra hk
  rw [← findIndexOf_eq_none, h] at hk
  exact Option.noConfusion hk

theorem eraseIdx_findIndexOf (k : Pubkey) (l : List Pubkey) (i : Nat) :
    findIndexOf k l = some i → l.eraseIdx i = l.erase k := by
  induction l generalizing i with
  | nil => simp [findIndexOf]
  | cons x xs ih =>
    simp only [findIndexOf]
    split
    · rename_i h
      intro hi
      cases hi
      simp [List.erase_cons, h]
    · rename_i h
      intro hi
      cases hfi : findIndexOf k xs with
      | none => rw [hfi] at hi; simp at hi
      | some j =>
        rw [hfi] at hi
        simp only [Option.map_some'] at hi
        cases hi
        have hx : ¬ (x == k) = true := by simp [h]
        simp [List.erase_cons, hx, List.eraseIdx_cons_succ, ih j hfi]

theorem nodup_append_singleton (l : List Pubkey) (k : Pubkey)
    (h : l.Nodup) (hk : k ∉ l) : (l ++ [k]).Nodup := by
  rw [List.nodup_append]
  refine ⟨h, List.nodup_singleton k, ?_⟩
  intro a ha hb
  rw [List.mem_singleton] at hb
  subst hb
  exact hk ha

theorem findIndexOf_lt_length (k : Pubkey) (l : List Pubkey) (i : Nat) :
    findIndexOf k l = some i → i < l.length := by
  induction l generalizing i with
  | nil => simp [findIndexOf]
  | cons x xs ih =>
    simp only [findIndexOf]
    split
    · intro h
      cases h
      simp
    · intro h
      cases hfi : findIndexOf k xs with
      | none => rw [hfi] at h; simp at h
      | some j =>
        rw [hfi] at h
        simp only [Option.map_some'] at h
        cases h
        have := ih j hfi
        simp only [List.length_cons]
        omega

/-! ### Registry invariant -/

/-- The registry well-formedness the spec states: `1 ≤ threshold`,
`threshold ≤ |members|`, `|members| ≥ 1`. -/
abbrev MsInv (ms : Ms) : Prop :=
  1 ≤ ms.threshold ∧ ms.threshold ≤ ms.keys.length ∧ 1 ≤ ms.keys.length

theorem create_msInv (ea th ck mk : Pubkey) (mems : List Pubkey) (ms' : Ms)
    (h : create ea th ck mems mk = .ok ms') : MsInv ms' := by
  unfold create at h
  simp only at h
  split at h
  · exact Except.noConfusion h
  split at h
  · exact Except.noConfusion h
  split at h
  · exact Except.noConfusion h
  · rename_i h1 h2 h3
    cases h
    push_neg at h3
    refine ⟨h3.1, h3.2, ?_⟩
    show 1 ≤ (sortKeys mems).dedup.length
    omega

theorem add_member_msInv (ms : Ms) (m : Pubkey) (ms' : Ms) (h : MsInv ms)
    (ha : add_member ms m = .ok ms') : MsInv ms' := by
  unfold add_member at ha
  split at ha
  · exact Except.noConfusion ha
  · simp only at ha
    cases ha
    obtain ⟨h1, h2, h3⟩ := h
    unfold Ms.add_member Ms.set_change_index
    split
    · exact ⟨h1, h2, h3⟩
    · show 1 ≤ ms.threshold ∧ ms.threshold ≤ (insertSorted m ms.keys).length ∧
        1 ≤ (insertSorted m ms.keys).length
      rw [length_insertSorted]
      exact ⟨h1, by omega, by omega⟩

theorem remove_member_msInv (ms : Ms) (m : Pubkey) (ms' : Ms) (h : MsInv ms)
    (hr : remove_member ms m = .ok ms') : MsInv ms' := by
  unfold remove_member Ms.remove_member at hr
  split at hr
  · exact Except.noConfusion hr
  · rename_i hlen1
    split at hr
    · exact Except.noConfusion hr
    · rename_i ms2 hmatch
      split at hmatch
      · exact Except.noConfusion hmatch
      · rename_i i hfi
        cases hmatch
        obtain ⟨h1, h2, h3⟩ := h
        have hi := findIndexOf_lt_length m ms.keys i hfi
        have hlen : (ms.keys.eraseIdx i).length = ms.keys.length - 1 := by
          rw [List.length_eraseIdx]
          simp [hi]
        have hne1 : ms.keys.length ≠ 1 := by
          intro hc
          rw [hc] at hlen1
          simp at hlen1
        simp only at hr
        split at hr
        · rename_i hlt
          cases hr
          unfold Ms.change_threshold Ms.set_change_index
          show 1 ≤ (ms.keys.eraseIdx i).length ∧
            (ms.keys.eraseIdx i).length ≤ (ms.keys.eraseIdx i).length ∧
            1 ≤ (ms.keys.eraseIdx i).length
          rw [hlen]
          exact ⟨by omega, le_refl _, by omega⟩
        · rename_i hge
          cases hr
          unfold Ms.set_change_index
          show 1 ≤ ms.threshold ∧ ms.threshold ≤ (ms.keys.eraseIdx i).length ∧
            1 ≤ (ms.keys.eraseIdx i).length
          rw [hlen] at hge ⊢
          exact ⟨h1, by omega, by omega⟩

theorem change_threshold_msInv (ms : Ms) (n : Nat) (ms' : Ms) (h : MsInv ms)
    (hc : change_threshold ms n = .ok ms') : MsInv ms' := by
  unfold change_threshold Ms.change_threshold Ms.set_change_index at hc
  obtain ⟨h1, h2, h3⟩ := h
  split at hc
  · rename_i hlt
    simp only at hc
    cases hc
    exact ⟨h3, le_refl _, h3⟩
  split at hc
  · exact Except.noConfusion hc
  · rename_i hge hn1
    simp only at hc
    cases hc
    show 1 ≤ n ∧ n ≤ ms.keys.length ∧ 1 ≤ ms.keys.length
    exact ⟨by omega, by omega, h3⟩

theorem add_member_and_change_threshold_msInv (ms : Ms) (m : Pubkey) (n : Nat)
    (ms' : Ms) (h : MsInv ms)
    (hc : add_member_and_change_threshold ms m n = .ok ms') : MsInv ms' := by
  unfold add_member_and_change_threshold at hc
  split at hc
  · exact Except.noConfusion hc
  · rename_i ms1 ham
    have h1 : MsInv ms1 := add_member_msInv ms m ms1 h ham
    obtain ⟨h1a, h1b, h1c⟩ := h1
    unfold Ms.change_threshold Ms.set_change_index at hc
    split at hc
    · simp only at hc
      cases hc
      exact ⟨h1c, le_refl _, h1c⟩
    split at hc
    · exact Except.noConfusion hc
    · rename_i hge hn1
      simp only at hc
      cases hc
      show 1 ≤ n ∧ n ≤ ms1.keys.length ∧ 1 ≤ ms1.keys.length
      exact ⟨by omega, by omega, h1c⟩

theorem remove_member_and_change_threshold_msInv (ms : Ms) (m : Pubkey) (n : Nat)
    (ms' : Ms) (h : MsInv ms)
    (hc : remove_member_and_change_threshold ms m n = .ok ms') : MsInv ms' := by
  unfold remove_member_and_change_threshold at hc
  split at hc
  · exact Except.noConfusion hc
  · rename_i ms1 hrm
    exact change_threshold_msInv ms1 n ms' (remove_member_msInv ms m ms1 h hrm) hc

/-! ### Claim theorems -/

/-- C2: after every successful administrative operation — create,
add_member, remove_member, change_threshold and the combined
add/remove-with-threshold variants — the registry satisfies
`1 ≤ threshold ≤ |members|` and `|members| ≥ 1` (for the mutating
operations, provided it satisfied them before). -/
theorem C2_registry_invariant (ms ms' : Ms) (h : MsInv ms) :
    (∀ ea th ck mems mk ms'', create ea th ck mems mk = .ok ms'' → MsInv ms'') ∧
    (∀ m, add_member ms m = .ok ms' → MsInv ms') ∧
    (∀ m, remove_member ms m = .ok ms' → MsInv ms') ∧
    (∀ n, change_threshold ms n = .ok ms' → MsInv ms') ∧
    (∀ m n, add_member_and_change_threshold ms m n = .ok ms' → MsInv ms') ∧
    (∀ m n, remove_member_and_change_threshold ms m n = .ok ms' → MsInv ms') :=
  ⟨fun ea th ck mems mk ms'' hc => create_msInv ea th ck mk mems ms'' hc,
   fun m hc => add_member_msInv ms m ms' h hc,
   fun m hc => remove_member_msInv ms m ms' h hc,
   fun n hc => change_threshold_msInv ms n ms' h hc,
   fun m n hc => add_member_and_change_threshold_msInv ms m n ms' h hc,
   fun m n hc => remove_member_and_change_threshold_msInv ms m n ms' h hc⟩

theorem C2_registry_invariant_witness :
    MsInv msW ∧
    ((∀ ea th ck mems mk ms'', create ea th ck mems mk = .ok ms'' → MsInv ms'') ∧
     (∀ m, add_member msW m = .ok msW → MsInv msW) ∧
     (∀ m, remove_member msW m = .ok msW → MsInv msW) ∧
     (∀ n, change_threshold msW n = .ok msW → MsInv msW) ∧
     (∀ m n, add_member_and_change_threshold msW m n = .ok msW → MsInv msW) ∧
     (∀ m n, remove_member_and_change_threshold msW m n = .ok msW → MsInv msW)) :=
  ⟨by decide, C2_registry_invariant msW msW (by decide)⟩

/-- C7: `change_threshold` rejects `newThreshold < 1` with
`InvalidThreshold`, clamps a value above the member count down to the
member count, and installs any value in `1 ≤ newThreshold ≤ |members|`
unchanged. -/
theorem C7_change_threshold_cases (ms : Ms) (n : Nat) :
    (n < 1 → change_threshold ms n = .error GraphsError.InvalidThreshold) ∧
    (ms.keys.length < n →
      ∃ ms', change_threshold ms n = .ok ms' ∧ ms'.threshold = ms.keys.length) ∧
    (1 ≤ n → n ≤ ms.keys.length →
      ∃ ms', change_threshold ms n = .ok ms' ∧ ms'.threshold = n) := by
  refine ⟨?_, ?_, ?_⟩
  · intro hn
    unfold change_threshold
    rw [if_neg (by omega), if_pos (by omega)]
  · intro hlt
    unfold change_threshold
    rw [if_pos hlt]
    exact ⟨_, rfl, rfl⟩
  · intro h1 h2
    unfold change_threshold
    rw [if_neg (by omega), if_neg (by omega)]
    exact ⟨_, rfl, rfl⟩

theorem C7_change_threshold_cases_witness :
    change_threshold msW 0 = .error GraphsError.InvalidThreshold ∧
    (∃ ms', change_threshold msW 2 = .ok ms' ∧ ms'.threshold = msW.keys.length) ∧
    (∃ ms', change_threshold msW 1 = .ok ms' ∧ ms'.threshold = 1) :=
  ⟨(C7_change_threshold_cases msW 0).1 (by decide),
   (C7_change_threshold_cases msW 2).2.1 (by decide),
   (C7_change_threshold_cases msW 1).2.2 (by decide) (by decide)⟩

/-! ### Vote bookkeeping -/

theorem approveCore_fields (ms : Ms) (tx : MsTransaction) (m : Pubkey) :
    (approveCore ms tx m).approved =
      (if m ∈ tx.approved then tx.approved else tx.approved ++ [m]) ∧
    (approveCore ms tx m).rejected = tx.rejected.erase m ∧
    (approveCore ms tx m).cancelled = tx.cancelled ∧
    (approveCore ms tx m).status =
      (if (approveCore ms tx m).approved.length ≥ ms.threshold
       then MsTransactionStatus.ExecuteReady else tx.status) := by
  unfold approveCore MsTransaction.has_voted_reject MsTransaction.has_voted_approve
    MsTransaction.remove_reject MsTransaction.sign MsTransaction.ready_to_execute
  cases hfr : findIndexOf m tx.rejected with
  | some ind =>
    have her := eraseIdx_findIndexOf m tx.rejected ind hfr
    cases hfa : findIndexOf m tx.approved with
    | none =>
      have hmem : m ∉ tx.approved := (findIndexOf_eq_none m tx.approved).mp hfa
      simp [apply_ite, hfa, her, hmem]
      split <;> intro h2 <;> exfalso <;> omega
    | some j =>
      have hmem : m ∈ tx.approved := mem_of_findIndexOf m tx.approved j hfa
      simp [apply_ite, hfa, her, hmem]
      split <;> intro h2 <;> exfalso <;> omega
  | none =>
    have hnm : m ∉ tx.rejected := (findIndexOf_eq_none m tx.rejected).mp hfr
    have her : tx.rejected.erase m = tx.rejected := List.erase_of_not_mem hnm
    cases hfa : findIndexOf m tx.approved with
    | none =>
      have hmem : m ∉ tx.approved := (findIndexOf_eq_none m tx.approved).mp hfa
      simp [apply_ite, hfa, her, hmem]
      split <;> intro h2 <;> exfalso <;> omega
    | some j =>
      have hmem : m ∈ tx.approved := mem_of_findIndexOf m tx.approved j hfa
      simp [apply_ite, hfa, her, hmem]
      split <;> intro h2 <;> exfalso <;> omega

theorem rejectCore_fields (ms : Ms) (tx : MsTransaction) (m : Pubkey) :
    (rejectCore ms tx m).approved = tx.approved.erase m ∧
    (rejectCore ms tx m).rejected =
      (if m ∈ tx.rejected then tx.rejected else tx.rejected ++ [m]) ∧
    (rejectCore ms tx m).cancelled = tx.cancelled ∧
    (rejectCore ms tx m).status =
      (if (rejectCore ms tx m).rejected.length > ms.keys.length - ms.threshold
       then MsTransactionStatus.Rejected else tx.status) := by
  unfold rejectCore MsTransaction.has_voted_reject MsTransaction.has_voted_approve
    MsTransaction.remove_approve MsTransaction.reject MsTransaction.set_rejected
  cases hfa : findIndexOf m tx.approved with
  | some ind =>
    have her := eraseIdx_findIndexOf m tx.approved ind hfa
    cases hfr : findIndexOf m tx.rejected with
    | none =>
      have hmem : m ∉ tx.rejected := (findIndexOf_eq_none m tx.rejected).mp hfr
      simp [apply_ite, hfr, her, hmem]
      split <;> intro h2 <;> exfalso <;> omega
    | some j =>
      have hmem : m ∈ tx.rejected := mem_of_findIndexOf m tx.rejected j hfr
      simp [apply_ite, hfr, her, hmem]
      split <;> intro h2 <;> exfalso <;> omega
  | none =>
    have hnm : m ∉ tx.approved := (findIndexOf_eq_none m tx.approved).mp hfa
    have her : tx.approved.erase m = tx.approved := List.erase_of_not_mem hnm
    cases hfr : findIndexOf m tx.rejected with
    | none =>
      have hmem : m ∉ tx.rejected := (findIndexOf_eq_none m tx.rejected).mp hfr
      simp [apply_ite, hfr, her, hmem]
      split <;> intro h2 <;> exfalso <;> omega
    | some j =>
      have hmem : m ∈ tx.rejected := mem_of_findIndexOf m tx.rejected j hfr
      simp [apply_ite, hfr, her, hmem]
      split <;> intro h2 <;> exfalso <;> omega

theorem cancelCore_fields (ms : Ms) (tx : MsTransaction) (m : Pubkey) :
    (cancelCore ms tx m).approved = tx.approved ∧
    (cancelCore ms tx m).rejected = tx.rejected ∧
    (cancelCore ms tx m).cancelled =
      (if m ∈ tx.cancelled then tx.cancelled else tx.cancelled ++ [m]) ∧
    (cancelCore ms tx m).status =
      (if (cancelCore ms tx m).cancelled.length ≥ ms.threshold
       then MsTransactionStatus.Cancelled else tx.status) := by
  unfold cancelCore MsTransaction.has_cancelled MsTransaction.cancel
    MsTransaction.set_cancelled
  cases hfc : findIndexOf m tx.cancelled with
  | none =>
    have hmem : m ∉ tx.cancelled := (findIndexOf_eq_none m tx.cancelled).mp hfc
    simp [apply_ite, hfc, hmem]
    split <;> intro h2 <;> exfalso <;> omega
  | some j =>
    have hmem : m ∈ tx.cancelled := mem_of_findIndexOf m tx.cancelled j hfc
    simp [apply_ite, hfc, hmem]
    split <;> intro h2 <;> exfalso <;> omega

/-- Vote-bookkeeping well-formedness: each vote list is duplicate-free and
no member holds both a standing approve and a standing reject vote. -/
abbrev VoteInv (tx : MsTransaction) : Prop :=
  tx.approved.Nodup ∧ tx.rejected.Nodup ∧ tx.cancelled.Nodup ∧
  ∀ k ∈ tx.approved, k ∉ tx.rejected

theorem approveCore_voteInv (ms : Ms) (tx : MsTransaction) (m : Pubkey)
    (h : VoteInv tx) : VoteInv (approveCore ms tx m) := by
  obtain ⟨ha, hr, hc, hd⟩ := h
  obtain ⟨f1, f2, f3, _⟩ := approveCore_fields ms tx m
  refine ⟨?_, ?_, ?_, ?_⟩
  · rw [f1]
    split
    · exact ha
    · rename_i hm
      exact nodup_append_singleton _ _ ha hm
  · rw [f2]
    exact hr.erase m
  · rw [f3]
    exact hc
  · intro k hk
    rw [f2]
    rw [f1] at hk
    by_cases hkm : k = m
    · subst hkm
      exact hr.not_mem_erase
    · rw [List.mem_erase_of_ne hkm]
      apply hd
      revert hk
      split
      · exact id
      · intro hk
        rcases List.mem_append.mp hk with h1 | h1
        · exact h1
        · rw [List.mem_singleton] at h1
          exact absurd h1 hkm

theorem rejectCore_voteInv (ms : Ms) (tx : MsTransaction) (m : Pubkey)
    (h : VoteInv tx) : VoteInv (rejectCore ms tx m) := by
  obtain ⟨ha, hr, hc, hd⟩ := h
  obtain ⟨f1, f2, f3, _⟩ := rejectCore_fields ms tx m
  refine ⟨?_, ?_, ?_, ?_⟩
  · rw [f1]
    exact ha.erase m
  · rw [f2]
    split
    · exact hr
    · rename_i hm
      exact nodup_append_singleton _ _ hr hm
  · rw [f3]
    exact hc
  · intro k hk
    rw [f2]
    rw [f1] at hk
    by_cases hkm : k = m
    · subst hkm
      exact absurd hk ha.not_mem_erase
    · have hka : k ∈ tx.approved := List.erase_subset _ _ hk
      have hkr : k ∉ tx.rejected := hd k hka
      split
      · exact hkr
      · intro hmem
        rcases List.mem_append.mp hmem with h1 | h1
        · exact hkr h1
        · rw [List.mem_singleton] at h1
          exact hkm h1

theorem cancelCore_voteInv (ms : Ms) (tx : MsTransaction) (m : Pubkey)
    (h : VoteInv tx) : VoteInv (cancelCore ms tx m) := by
  obtain ⟨ha, hr, hc, hd⟩ := h
  obtain ⟨f1, f2, f3, _⟩ := cancelCore_fields ms tx m
  refine ⟨?_, ?_, ?_, ?_⟩
  · rw [f1]
    exact ha
  · rw [f2]
    exact hr
  · rw [f3]
    split
    · exact hc
    · rename_i hm
      exact nodup_append_singleton _ _ hc hm
  · intro k hk
    rw [f2]
    rw [f1] at hk
    exact hd k hk

/-- The `VoteTransaction` constraints pass exactly on an Active,
non-deprecated proposal of this multisig, called by a member. -/
theorem voteChecks_none (ms : Ms) (tx : MsTransaction) (m : Pubkey)
    (h : voteChecks ms tx m = none) :
    (Ms.is_member ms m).isSome ∧ tx.status = MsTransactionStatus.Active ∧
    tx.transaction_index > ms.ms_change_index ∧ tx.ms = ms.key := by
  unfold voteChecks at h
  split at h
  · exact Option.noConfusion h
  split at h
  · exact Option.noConfusion h
  split at h
  · exact Option.noConfusion h
  split at h
  · exact Option.noConfusion h
  · rename_i h1 h2 h3 h4
    push_neg at h2 h3 h4
    refine ⟨?_, h2, h3, h4⟩
    cases hm : Ms.is_member ms m with
    | none => rw [hm] at h1; simp at h1
    | some v => simp

/-- C3 (counterexample): after member 1 approves the Active proposal
`txC3` (reaching ExecuteReady) and then casts a cancel vote, member 1
stands in both the `approved` and the `cancelled` set simultaneously —
`cancel_transaction` does not clear prior votes. -/
theorem C3_counterexample_cancel_overlap :
    approve_transaction msC3 txC3 1 = .ok txC3a ∧
    cancel_transaction msC3 txC3a 1 = .ok txC3b ∧
    1 ∈ txC3b.approved ∧ 1 ∈ txC3b.cancelled := by
  refine ⟨?_, ?_, ?_, ?_⟩ <;> first | rfl | decide

/-- C3 (amended): approve, reject and cancel preserve the invariant that
the three vote lists are duplicate-free and that a member holds at most
one of a standing approve and a standing reject vote; the cancelled set
is not cleared of prior approve/reject voters, so a member may appear in
`cancelled` together with `approved` or `rejected`. -/
theorem C3_vote_exclusivity_amended (ms : Ms) (tx tx' : MsTransaction)
    (m : Pubkey) (h : VoteInv tx) :
    (approve_transaction ms tx m = .ok tx' → VoteInv tx') ∧
    (reject_transaction ms tx m = .ok tx' → VoteInv tx') ∧
    (cancel_transaction ms tx m = .ok tx' → VoteInv tx') := by
  refine ⟨?_, ?_, ?_⟩ <;> intro hc
  · unfold approve_transaction at hc
    split at hc
    · exact Except.noConfusion hc
    · cases hc
      exact approveCore_voteInv ms tx m h
  · unfold reject_transaction at hc
    split at hc
    · exact Except.noConfusion hc
    · cases hc
      exact rejectCore_voteInv ms tx m h
  · unfold cancel_transaction at hc
    split at hc
    · exact Except.noConfusion hc
    · cases hc
      exact cancelCore_voteInv ms tx m h

theorem C3_vote_exclusivity_amended_witness :
    (approve_transaction msC3 txC3 1 = .ok txC3a → VoteInv txC3a) ∧
    (reject_transaction msC3 txC3 1 = .ok txC3a → VoteInv txC3a) ∧
    (cancel_transaction msC3 txC3 1 = .ok txC3a → VoteInv txC3a) :=
  C3_vote_exclusivity_amended msC3 txC3 txC3a 1 (by decide)

/-- C4: on an Active, non-deprecated proposal (the `VoteTransaction`
constraints pass) of a well-formed registry, `reject_transaction` removes
any standing approve vote by the member, records the rejection only when
new, and ends in Rejected exactly when `|rejected| > |members| −
threshold`; with 7 members and threshold 3 a fifth reject vote forces
Rejected. -/
theorem C4_reject_semantics (ms : Ms) (tx : MsTransaction) (m : Pubkey)
    (hchecks : voteChecks ms tx m = none)
    (hth : ms.threshold ≤ ms.keys.length) :
    ∃ tx', reject_transaction ms tx m = .ok tx' ∧
      tx'.approved = tx.approved.erase m ∧
      (m ∈ tx.rejected → tx'.rejected = tx.rejected) ∧
      (m ∉ tx.rejected → tx'.rejected = tx.rejected ++ [m]) ∧
      (tx'.status = MsTransactionStatus.Rejected ↔
        tx'.rejected.length > ms.keys.length - ms.threshold) ∧
      (ms.keys.length = 7 → ms.threshold = 3 → tx'.rejected.length = 5 →
        tx'.status = MsTransactionStatus.Rejected) := by
  obtain ⟨f1, f2, f3, f4⟩ := rejectCore_fields ms tx m
  have hst := (voteChecks_none ms tx m hchecks).2.1
  refine ⟨rejectCore ms tx m, ?_, f1, ?_, ?_, ?_, ?_⟩
  · unfold reject_transaction
    rw [hchecks]
  · intro hm
    rw [f2, if_pos hm]
  · intro hm
    rw [f2, if_neg hm]
  · rw [f4]
    constructor
    · intro hr
      by_cases hcond :
          (rejectCore ms tx m).rejected.length > ms.keys.length - ms.threshold
      · exact hcond
      · rw [if_neg hcond, hst] at hr
        exact absurd hr (by decide)
    · intro hcond
      rw [if_pos hcond]
  · intro h7 h3 h5
    rw [f4, if_pos (by rw [h5, h7, h3]; decide)]

theorem C4_reject_semantics_witness :
    ∃ tx', reject_transaction ms7 tx7 1 = .ok tx' ∧
      tx'.approved = tx7.approved.erase 1 ∧
      (1 ∈ tx7.rejected → tx'.rejected = tx7.rejected) ∧
      (1 ∉ tx7.rejected → tx'.rejected = tx7.rejected ++ [1]) ∧
      (tx'.status = MsTransactionStatus.Rejected ↔
        tx'.rejected.length > ms7.keys.length - ms7.threshold) ∧
      (ms7.keys.length = 7 → ms7.threshold = 3 → tx'.rejected.length = 5 →
        tx'.status = MsTransactionStatus.Rejected) :=
  C4_reject_semantics ms7 tx7 1 (by decide) (by decide)

/-- C5: on an Active, non-deprecated proposal (the `VoteTransaction`
constraints pass), `approve_transaction` removes any standing reject vote
by the member, records the approval only when not already present (a
repeat approval leaves `approved` unchanged), and ends in ExecuteReady
whenever `|approved| ≥ threshold` after the call. -/
theorem C5_approve_semantics (ms : Ms) (tx : MsTransaction) (m : Pubkey)
    (hchecks : voteChecks ms tx m = none) :
    ∃ tx', approve_transaction ms tx m = .ok tx' ∧
      tx'.rejected = tx.rejected.erase m ∧
      (m ∈ tx.approved → tx'.approved = tx.approved) ∧
      (m ∉ tx.approved → tx'.approved = tx.approved ++ [m]) ∧
      (tx'.approved.length ≥ ms.threshold →
        tx'.status = MsTransactionStatus.ExecuteReady) := by
  obtain ⟨f1, f2, f3, f4⟩ := approveCore_fields ms tx m
  refine ⟨approveCore ms tx m, ?_, f2, ?_, ?_, ?_⟩
  · unfold approve_transaction
    rw [hchecks]
  · intro hm
    rw [f1, if_pos hm]
  · intro hm
    rw [f1, if_neg hm]
  · intro hlen
    rw [f4, if_pos hlen]

theorem C5_approve_semantics_witness :
    ∃ tx', approve_transaction msV txV 1 = .ok tx' ∧
      tx'.rejected = txV.rejected.erase 1 ∧
      (1 ∈ txV.approved → tx'.approved = txV.approved) ∧
      (1 ∉ txV.approved → tx'.approved = txV.approved ++ [1]) ∧
      (tx'.approved.length ≥ msV.threshold →
        tx'.status = MsTransactionStatus.ExecuteReady) :=
  C5_approve_semantics msV txV 1 (by decide)

/-- C10: a duplicate approval by an already-approved member on an Active
proposal whose approved set already meets the threshold still runs the
threshold check: the proposal moves to ExecuteReady with the approved
set unchanged. -/
theorem C10_duplicate_approve_threshold (ms : Ms) (tx : MsTransaction)
    (m : Pubkey) (hchecks : voteChecks ms tx m = none)
    (hm : m ∈ tx.approved)
    (hlen : tx.approved.length ≥ ms.threshold) :
    ∃ tx', approve_transaction ms tx m = .ok tx' ∧
      tx'.approved = tx.approved ∧
      tx'.status = MsTransactionStatus.ExecuteReady := by
  obtain ⟨f1, _, _, f4⟩ := approveCore_fields ms tx m
  have ha : (approveCore ms tx m).approved = tx.approved := by
    rw [f1, if_pos hm]
  refine ⟨approveCore ms tx m, ?_, ha, ?_⟩
  · unfold approve_transaction
    rw [hchecks]
  · rw [f4, if_pos (by rw [ha]; exact hlen)]

theorem C10_duplicate_approve_threshold_witness :
    ∃ tx', approve_transaction msC10 txC10 1 = .ok tx' ∧
      tx'.approved = txC10.approved ∧
      tx'.status = MsTransactionStatus.ExecuteReady :=
  C10_duplicate_approve_threshold msC10 txC10 1 (by decide) (by decide)
    (by decide)

/-- C1 (counterexample): a proposal with `transaction_index ≤
ms_change_index` that is already ExecuteReady is not rejected with
`DeprecatedTransaction` at execution — `ExecuteTransaction` carries no
deprecation constraint — and reaches Executed. -/
theorem C1_counterexample_deprecated_execution :
    txDep.transaction_index ≤ msDep.ms_change_index ∧
    execute_transaction envOk msDep txDep 1 =
      .ok { txDep with status := MsTransactionStatus.Executed } :=
  ⟨by decide, rfl⟩

/-- C1 (amended): a proposal with `transaction_index ≤ ms_change_index`
is rejected with `DeprecatedTransaction` at activation (from Draft) and
at approve/reject voting (while Active); execution performs no such
check, so a proposal that was already ExecuteReady when `ms_change_index`
was bumped can still be executed. -/
theorem C1_deprecation_blocks_activation_and_voting (ms : Ms)
    (tx : MsTransaction) (c m : Pubkey)
    (hdep : tx.transaction_index ≤ ms.ms_change_index) :
    ((Ms.is_member ms c).isSome = true → c = tx.creator →
      tx.status = MsTransactionStatus.Draft →
      activate_transaction ms tx c = .error GraphsError.DeprecatedTransaction) ∧
    ((Ms.is_member ms m).isSome = true →
      tx.status = MsTransactionStatus.Active →
      approve_transaction ms tx m = .error GraphsError.DeprecatedTransaction) ∧
    ((Ms.is_member ms m).isSome = true →
      tx.status = MsTransactionStatus.Active →
      reject_transaction ms tx m = .error GraphsError.DeprecatedTransaction) := by
  refine ⟨?_, ?_, ?_⟩
  · intro hmem hcc hdraft
    unfold activate_transaction activateChecks
    cases hm' : Ms.is_member ms c with
    | none => rw [hm'] at hmem; simp at hmem
    | some v =>
      rw [if_neg (by simp), if_neg (by simp [hcc]), if_neg (by simp [hdraft]),
        if_pos (by omega)]
  · intro hmem hact
    unfold approve_transaction voteChecks
    cases hm' : Ms.is_member ms m with
    | none => rw [hm'] at hmem; simp at hmem
    | some v =>
      rw [if_neg (by simp), if_neg (by simp [hact]), if_pos (by omega)]
  · intro hmem hact
    unfold reject_transaction voteChecks
    cases hm' : Ms.is_member ms m with
    | none => rw [hm'] at hmem; simp at hmem
    | some v =>
      rw [if_neg (by simp), if_neg (by simp [hact]), if_pos (by omega)]

theorem C1_deprecation_blocks_activation_and_voting_witness :
    activate_transaction msDep txDepDraft 1 =
      .error GraphsError.DeprecatedTransaction ∧
    approve_transaction msDep txDepActive 1 =
      .error GraphsError.DeprecatedTransaction ∧
    reject_transaction msDep txDepActive 1 =
      .error GraphsError.DeprecatedTransaction :=
  ⟨(C1_deprecation_blocks_activation_and_voting msDep txDepDraft 1 1
      (by decide)).1 (by decide) (by decide) (by decide),
   (C1_deprecation_blocks_activation_and_voting msDep txDepActive 1 1
      (by decide)).2.1 (by decide) (by decide),
   (C1_deprecation_blocks_activation_and_voting msDep txDepActive 1 1
      (by decide)).2.2 (by decide) (by decide)⟩

/-- C9: activating a proposal requires the signer to be a current member:
when the proposal's creator is no longer in the member set, the
`ActivateTransaction` membership constraint (checked before any other)
fails with `KeyNotInMultisig`. -/
theorem C9_activate_requires_membership (ms : Ms) (tx : MsTransaction)
    (c : Pubkey) (hcreator : tx.creator = c)
    (hnm : Ms.is_member ms c = none) :
    activate_transaction ms tx c = .error GraphsError.KeyNotInMultisig := by
  unfold activate_transaction activateChecks
  rw [hnm]
  rfl

theorem C9_activate_requires_membership_witness :
    activate_transaction msW txC9 1 = .error GraphsError.KeyNotInMultisig :=
  C9_activate_requires_membership msW txC9 1 (by decide) (by decide)

/-- C6: once sequential execution has started (`executed_index ≥ 1`),
atomic execution fails with `PartialExecution`; `execute_instruction`
rejects any operation record whose index is not `executed_index + 1`;
on the operation with index `executed_index + 1` (host invocation
succeeding) it advances `executed_index` by exactly one, flags the
operation executed, and marks the proposal Executed when the new
`executed_index` equals `instruction_index`. -/
theorem C6_stepwise_execution (envA : Nat → Except GraphsError Unit)
    (envB : Except GraphsError Unit) (ms : Ms) (tx : MsTransaction)
    (ix : MsInstruction) (m : Pubkey)
    (hm : (Ms.is_member ms m).isSome = true ∨ ms.allow_external_execute = true)
    (hst : tx.status = MsTransactionStatus.ExecuteReady)
    (hms : tx.ms = ms.key) :
    (1 ≤ tx.executed_index →
      execute_transaction envA ms tx m = .error GraphsError.PartialExecution) ∧
    (ix.executed = false → ix.instruction_index ≠ tx.executed_index + 1 →
      execute_instruction envB ms tx ix m =
        .error GraphsError.InvalidInstructionAccount) ∧
    (ix.executed = false → ix.instruction_index = tx.executed_index + 1 →
      ∃ tx' ix',
        execute_instruction (Except.ok ()) ms tx ix m = .ok (tx', ix') ∧
        tx'.executed_index = tx.executed_index + 1 ∧ ix'.executed = true ∧
        (tx'.executed_index = tx.instruction_index →
          tx'.status = MsTransactionStatus.Executed)) := by
  refine ⟨?_, ?_, ?_⟩
  · intro hei
    unfold execute_transaction executeTxChecks
    rw [if_neg (not_not_intro hm), if_neg (by simp [hst]),
      if_neg (by simp [hms]), if_pos (by omega)]
  · intro hnx hii
    unfold execute_instruction executeIxChecks
    rw [if_neg (not_not_intro hm), if_neg (by simp [hst]),
      if_neg (by simp [hms]), if_neg (by simp [hnx]), if_pos hii]
  · intro hnx hii
    unfold execute_instruction executeIxChecks
    rw [if_neg (not_not_intro hm), if_neg (by simp [hst]),
      if_neg (by simp [hms]), if_neg (by simp [hnx]),
      if_neg (not_not_intro hii)]
    refine ⟨_, _, rfl, ?_, rfl, ?_⟩
    · split <;> exact hii
    · split
      · intro _
        rfl
      · rename_i hne
        intro hcontra
        exact absurd hcontra hne

theorem C6_stepwise_execution_witness :
    execute_transaction envOk msE txE 1 = .error GraphsError.PartialExecution ∧
    execute_instruction (Except.ok ()) msE txE ixBad 1 =
      .error GraphsError.InvalidInstructionAccount ∧
    (∃ tx' ix',
      execute_instruction (Except.ok ()) msE txE ixE 1 = .ok (tx', ix') ∧
      tx'.executed_index = txE.executed_index + 1 ∧ ix'.executed = true ∧
      (tx'.executed_index = txE.instruction_index →
        tx'.status = MsTransactionStatus.Executed)) :=
  ⟨(C6_stepwise_execution envOk (Except.ok ()) msE txE ixBad 1 (by decide)
      (by decide) (by decide)).1 (by decide),
   (C6_stepwise_execution envOk (Except.ok ()) msE txE ixBad 1 (by decide)
      (by decide) (by decide)).2.1 (by decide) (by decide),
   (C6_stepwise_execution envOk (Except.ok ()) msE txE ixE 1 (by decide)
      (by decide) (by decide)).2.2 (by decide) (by decide)⟩

/-- C8: an ExecuteReady proposal with zero attached operations
(`instruction_index < 1`) is marked Executed immediately by
`execute_transaction`, for every host environment (no delegated
invocation is consulted). -/
theorem C8_execute_zero_ops (env : Nat → Except GraphsError Unit) (ms : Ms)
    (tx : MsTransaction) (m : Pubkey)
    (hm : (Ms.is_member ms m).isSome = true ∨ ms.allow_external_execute = true)
    (hst : tx.status = MsTransactionStatus.ExecuteReady)
    (hms : tx.ms = ms.key) (hei : tx.executed_index < 1)
    (hin : tx.instruction_index < 1) :
    execute_transaction env ms tx m = .ok tx.set_executed := by
  unfold execute_transaction executeTxChecks
  rw [if_neg (not_not_intro hm), if_neg (by simp [hst]),
    if_neg (by simp [hms]), if_neg (not_not_intro hei), if_pos hin]

theorem C8_execute_zero_ops_witness :
    execute_transaction envOk msE txE0 1 = .ok txE0.set_executed :=
  C8_execute_zero_ops envOk msE txE0 1 (by decide) (by decide) (by decide)
    (by decide) (by decide)

end Mesh
